import Mathlib

/-!
Shallow embedding of the `dehistory` browser extension core
(`constants.js`, `settingsManager.js`, `dataCleaner.js`, `eventHandler.js`,
`utils.js`, `options.js`) and proofs of the specification claims.

Strings are modelled as Lean `String` (sequences of Unicode code points);
JavaScript string primitives (`split`, `trim`, `includes`, `startsWith`,
`endsWith`) are embedded as executable functions on the underlying
character lists.
-/

namespace Dehistory

/-! ### Character classes used by the regular expressions in `constants.js` -/

/-- ASCII lower-case letter, `[a-z]` in `DOMAIN_REGEX`. -/
def isAsciiLowerChar (c : Char) : Bool :=
  decide (97 ≤ c.toNat ∧ c.toNat ≤ 122)

/-- ASCII upper-case letter; `DOMAIN_REGEX` carries the `i` flag. -/
def isAsciiUpperChar (c : Char) : Bool :=
  decide (65 ≤ c.toNat ∧ c.toNat ≤ 90)

/-- ASCII digit, `[0-9]` in `DOMAIN_REGEX`. -/
def isAsciiDigitChar (c : Char) : Bool :=
  decide (48 ≤ c.toNat ∧ c.toNat ≤ 57)

/-- `[a-z0-9]` with the `i` flag: a case-insensitive alphanumeric character. -/
def isAlnumChar (c : Char) : Bool :=
  isAsciiLowerChar c || isAsciiUpperChar c || isAsciiDigitChar c

/-- `[a-z0-9-]` with the `i` flag: interior character of a domain label. -/
def isLabelChar (c : Char) : Bool :=
  isAlnumChar c || c = '-'

/-- Embeds `DANGEROUS_CHARS_REGEX.test` applied to a single character:
the ranges x00-x1f, x7f-x9f, u2000-u200f, u2028-u202f, u205f-u206f. -/
def isDangerousChar (c : Char) : Bool :=
  decide (c.toNat ≤ 0x1f ∨
    (0x7f ≤ c.toNat ∧ c.toNat ≤ 0x9f) ∨
    (0x2000 ≤ c.toNat ∧ c.toNat ≤ 0x200f) ∨
    (0x2028 ≤ c.toNat ∧ c.toNat ≤ 0x202f) ∨
    (0x205f ≤ c.toNat ∧ c.toNat ≤ 0x206f))

/-- `/^[\x00-\x7F]*$/` applied to a single character: an ASCII code point. -/
def isAsciiChar (c : Char) : Bool :=
  decide (c.toNat ≤ 0x7f)

/-- JavaScript `String.prototype.trim` whitespace set
(ASCII whitespace, NBSP, Unicode space separators, BOM). -/
def isJsWhitespaceChar (c : Char) : Bool :=
  decide (c.toNat = 9 ∨ c.toNat = 10 ∨ c.toNat = 11 ∨ c.toNat = 12 ∨
    c.toNat = 13 ∨ c.toNat = 32 ∨ c.toNat = 160 ∨ c.toNat = 0x1680 ∨
    (0x2000 ≤ c.toNat ∧ c.toNat ≤ 0x200a) ∨ c.toNat = 0x2028 ∨
    c.toNat = 0x2029 ∨ c.toNat = 0x202f ∨ c.toNat = 0x205f ∨
    c.toNat = 0x3000 ∨ c.toNat = 0xfeff)

/-! ### JavaScript string primitives over character lists -/

/-- Embeds JavaScript `str.split(sep)` for a single-character separator:
`"".split(s) = [""]`, separators at the ends produce empty parts. -/
def splitOnChar (sep : Char) : List Char → List (List Char)
  | [] => [[]]
  | c :: rest =>
    if c = sep then
      [] :: splitOnChar sep rest
    else
      match splitOnChar sep rest with
      | [] => [[c]]
      | p :: ps => (c :: p) :: ps

/-- Inverse of `splitOnChar`: interleaves the separator between the parts. -/
def joinSep (sep : Char) : List (List Char) → List Char
  | [] => []
  | [p] => p
  | p :: ps => p ++ sep :: joinSep sep ps

/-- Whether two adjacent occurrences of `sep` appear in the list; embeds
JavaScript `str.includes(sep + sep)` for a single-character `sep`. -/
def hasConsecutive (sep : Char) : List Char → Bool
  | a :: b :: rest => (a = sep && b = sep) || hasConsecutive sep (b :: rest)
  | _ => false

/-- Embeds JavaScript `str.trim()`. -/
def jsTrim (cs : List Char) : List Char :=
  ((cs.dropWhile isJsWhitespaceChar).reverse.dropWhile isJsWhitespaceChar).reverse

/-- `trim` on `String`. -/
def jsTrimStr (s : String) : String :=
  ⟨jsTrim s.data⟩

/-- Embeds JavaScript `str.includes(c)` for a single character. -/
def jsContainsChar (s : String) (c : Char) : Bool :=
  s.data.any (· = c)

/-! ### `constants.js` -/

/-- Field-for-field embedding of the `DEFAULT_SETTINGS` constant object. -/
structure DefaultSettingsObj where
  WHITELIST_KEEP_COOKIES : Nat
  WHITELIST_KEEP_CACHE : Nat
  RUN_ON_STARTUP : Bool
  RUN_ON_CLOSE : Bool
  REMOVE_DOWNLOADS : Bool
  REMOVE_FORMDATA : Bool
  REMOVE_HISTORY : Bool
  REMOVE_COOKIES : Bool
  REMOVE_CACHE_AND_STORAGE : Bool
deriving DecidableEq, Repr

/-- `DEFAULT_SETTINGS` from `constants.js`. -/
def DEFAULT_SETTINGS : DefaultSettingsObj :=
  { WHITELIST_KEEP_COOKIES := 1
    WHITELIST_KEEP_CACHE := 1
    RUN_ON_STARTUP := false
    RUN_ON_CLOSE := false
    REMOVE_DOWNLOADS := true
    REMOVE_FORMDATA := true
    REMOVE_HISTORY := true
    REMOVE_COOKIES := true
    REMOVE_CACHE_AND_STORAGE := true }

/-- A domain label as accepted by one `([a-z0-9]([a-z0-9-]{0,61}[a-z0-9])?\.)`
group of `DOMAIN_REGEX`: nonempty, at most 63 characters, every character
alphanumeric or hyphen, first and last characters alphanumeric. -/
def isValidLabelChars (cs : List Char) : Bool :=
  match cs.head?, cs.getLast? with
  | some a, some b =>
    isAlnumChar a && isAlnumChar b && cs.all isLabelChar &&
      decide (cs.length ≤ 63)
  | _, _ => false

/-- The trailing `[a-z]{2,}` (case-insensitive) of `DOMAIN_REGEX`:
at least two characters, all letters. -/
def isValidTldChars (cs : List Char) : Bool :=
  decide (2 ≤ cs.length) && cs.all (fun c => isAsciiLowerChar c || isAsciiUpperChar c)

/-- Embeds `DOMAIN_REGEX.test(domain)` for
`DOMAIN_REGEX = /^([a-z0-9]([a-z0-9-]{0,61}[a-z0-9])?\.)+[a-z]{2,}$/i`.
Since no label may contain a dot, the anchored match is equivalent to:
splitting on `.` yields at least two parts, every part but the last is a
valid label, and the last part matches `[a-z]{2,}` case-insensitively. -/
def domainRegexTest (domain : String) : Bool :=
  let parts := splitOnChar '.' domain.data
  decide (2 ≤ parts.length) && parts.dropLast.all isValidLabelChars &&
    isValidTldChars (parts.getLast?.getD [])

/-- Embeds JavaScript `str.startsWith(c)` for a single character. -/
def jsStartsWith (s : String) (c : Char) : Bool :=
  s.data.head? = some c

/-- Embeds JavaScript `str.endsWith(c)` for a single character. -/
def jsEndsWith (s : String) (c : Char) : Bool :=
  s.data.getLast? = some c

/-! ### Data model (`constants.js` whitelist keys, `settingsManager.js`) -/

/-- A whitelist entry `{domain, keepCookies, keepCache}`; the flags are the
numbers `0`/`1` as produced by `parseWhitelistLine`. -/
structure WhitelistEntry where
  domain : String
  keepCookies : Nat
  keepCache : Nat
deriving DecidableEq, Repr

/-- The two flag names of `WHITELIST_KEYS` that `getOriginsByFlag` accepts. -/
inductive FlagName where
  | keepCookies
  | keepCache
deriving DecidableEq, Repr

/-- Dynamic property lookup `entry[flagName]` on a whitelist entry. -/
def lookupFlag (entry : WhitelistEntry) : FlagName → Nat
  | .keepCookies => entry.keepCookies
  | .keepCache => entry.keepCache

/-- The in-memory settings held by `SettingsManager`. -/
structure Settings where
  whitelist : List WhitelistEntry
  runOnStartup : Bool
  runOnClose : Bool
  removeDownloads : Bool
  removeFormData : Bool
  removeHistory : Bool
  removeCookies : Bool
  removeCacheAndStorage : Bool
deriving DecidableEq, Repr

/-- `SettingsManager.initializeDefaults`. -/
def initializeDefaults : Settings :=
  { whitelist := []
    runOnStartup := DEFAULT_SETTINGS.RUN_ON_STARTUP
    runOnClose := DEFAULT_SETTINGS.RUN_ON_CLOSE
    removeDownloads := DEFAULT_SETTINGS.REMOVE_DOWNLOADS
    removeFormData := DEFAULT_SETTINGS.REMOVE_FORMDATA
    removeHistory := DEFAULT_SETTINGS.REMOVE_HISTORY
    removeCookies := DEFAULT_SETTINGS.REMOVE_COOKIES
    removeCacheAndStorage := DEFAULT_SETTINGS.REMOVE_CACHE_AND_STORAGE }

/-- The batch result of `chrome.storage.local.get`: each recognized key is
either present with a value or absent (`none` models absent / `null` /
`undefined`, the values the `??` operator falls through). -/
structure StoredResult where
  whitelist : Option (List WhitelistEntry)
  runOnStartup : Option Bool
  runOnClose : Option Bool
  removeDownloads : Option Bool
  removeFormData : Option Bool
  removeHistory : Option Bool
  removeCookies : Option Bool
  removeCacheAndStorage : Option Bool
deriving DecidableEq, Repr

/-- A store with nothing persisted. -/
def emptyStoredResult : StoredResult :=
  { whitelist := none, runOnStartup := none, runOnClose := none
    removeDownloads := none, removeFormData := none, removeHistory := none
    removeCookies := none, removeCacheAndStorage := none }

/-- `SettingsManager.applyLoadedSettings`: every field is resolved with the
nullish-coalescing operator `??` against its default. -/
def applyLoadedSettings (result : StoredResult) : Settings :=
  { whitelist := result.whitelist.getD []
    runOnStartup := result.runOnStartup.getD DEFAULT_SETTINGS.RUN_ON_STARTUP
    runOnClose := result.runOnClose.getD DEFAULT_SETTINGS.RUN_ON_CLOSE
    removeDownloads := result.removeDownloads.getD DEFAULT_SETTINGS.REMOVE_DOWNLOADS
    removeFormData := result.removeFormData.getD DEFAULT_SETTINGS.REMOVE_FORMDATA
    removeHistory := result.removeHistory.getD DEFAULT_SETTINGS.REMOVE_HISTORY
    removeCookies := result.removeCookies.getD DEFAULT_SETTINGS.REMOVE_COOKIES
    removeCacheAndStorage :=
      result.removeCacheAndStorage.getD DEFAULT_SETTINGS.REMOVE_CACHE_AND_STORAGE }

/-- `SettingsManager.getOriginsByFlag`: filter the whitelist on
`entry[flagName] === 1`, then flat-map each entry to its two origins with
the domain trimmed. -/
def getOriginsByFlag (s : Settings) (flagName : FlagName) : List String :=
  (s.whitelist.filter (fun entry => lookupFlag entry flagName == 1)).flatMap
    (fun entry =>
      let domain := jsTrimStr entry.domain
      ["https://" ++ domain, "http://" ++ domain])

/-! ### `dataCleaner.js` -/

/-- The first argument of `chrome.browsingData.remove`: a time range plus an
optional origin exclusion list (an absent `excludeOrigins` key is modelled
as the empty list, which excludes nothing). -/
structure RemovalOptions where
  since : Nat
  excludeOrigins : List String
deriving DecidableEq, Repr

/-- The second argument of `chrome.browsingData.remove`: which data types to
remove; a key absent from the object passed by the source is modelled as
`false`. -/
structure DataTypeSet where
  appcache : Bool := false
  downloads : Bool := false
  formData : Bool := false
  history : Bool := false
  cookies : Bool := false
  cacheStorage : Bool := false
  cache : Bool := false
  fileSystems : Bool := false
  indexedDB : Bool := false
  localStorage : Bool := false
  serviceWorkers : Bool := false
  webSQL : Bool := false
deriving DecidableEq, Repr

/-- One invocation of the opaque removal capability. -/
structure RemovalCall where
  options : RemovalOptions
  dataTypes : DataTypeSet
deriving DecidableEq, Repr

namespace DataCleaner

/-- `DataCleaner.removeBulkData`: always issues one call with `since: 0` and
no exclusions; `appcache` unconditionally, the other three per settings. -/
def removeBulkData (s : Settings) : Option RemovalCall :=
  some { options := { since := 0, excludeOrigins := [] }
         dataTypes := { appcache := true
                        downloads := s.removeDownloads
                        formData := s.removeFormData
                        history := s.removeHistory } }

/-- `DataCleaner.removeCookies`: returns without any call when the
`removeCookies` setting is off; otherwise one call excluding the
`keepCookies` origins. -/
def removeCookies (s : Settings) : Option RemovalCall :=
  if s.removeCookies = false then
    none
  else
    some { options := { since := 0
                        excludeOrigins := getOriginsByFlag s .keepCookies }
           dataTypes := { cookies := true } }

/-- `DataCleaner.removeCacheAndStorage`: returns without any call when the
`removeCacheAndStorage` setting is off; otherwise one call over the seven
storage data types excluding the `keepCache` origins. -/
def removeCacheAndStorage (s : Settings) : Option RemovalCall :=
  if s.removeCacheAndStorage = false then
    none
  else
    some { options := { since := 0
                        excludeOrigins := getOriginsByFlag s .keepCache }
           dataTypes := { cacheStorage := true
                          cache := true
                          fileSystems := true
                          indexedDB := true
                          localStorage := true
                          serviceWorkers := true
                          webSQL := true } }

/-- `DataCleaner.clearAll`: the three passes launched by `Promise.all`,
as the list of removal-capability invocations they perform. -/
def clearAll (s : Settings) : List RemovalCall :=
  [removeBulkData s, removeCookies s, removeCacheAndStorage s].filterMap id

end DataCleaner

/-! ### `eventHandler.js` -/

namespace EventHandler

/-- The session-scoped state the startup handler interacts with: the
`startupCleanExecuted` guard in `chrome.storage.session`, plus an
instrumentation counter of how many times `cleaner.clearAll()` has been
invoked (the "removal capability" of the spec). -/
structure SessionState where
  startupCleanExecuted : Bool
  clearAllRuns : Nat
deriving DecidableEq, Repr

/-- `EventHandler.handleStartupIfNeeded`. `runOnStartup` is the in-memory
setting; `clearAllOk` says whether the awaited `clearAll()` resolves
(`false` = it rejects, so the `catch` logs the error and the guard write
that follows the await is never reached). -/
def handleStartupIfNeeded (runOnStartup : Bool) (clearAllOk : Bool)
    (st : SessionState) : SessionState :=
  if st.startupCleanExecuted then
    st
  else if runOnStartup then
    if clearAllOk then
      { startupCleanExecuted := true, clearAllRuns := st.clearAllRuns + 1 }
    else
      { startupCleanExecuted := st.startupCleanExecuted
        clearAllRuns := st.clearAllRuns + 1 }
  else
    st

/-- A message sender; `id` is absent (`undefined`) or a string. -/
structure Sender where
  id : Option String
deriving DecidableEq, Repr

/-- An incoming runtime message. -/
structure MessageRequest where
  action : String
deriving DecidableEq, Repr

/-- The object passed to `sendResponse`. -/
structure MessageResponse where
  success : Bool
  error : Option String
deriving DecidableEq, Repr

/-- `EventHandler.isValidSender`: `sender.id && sender.id === chrome.runtime.id`
(an absent or empty `id` is falsy). -/
def isValidSender (runtimeId : String) (sender : Sender) : Bool :=
  match sender.id with
  | none => false
  | some i => !(i == "") && i == runtimeId

/-- The observable effect of one `handleMessage` call: the response passed to
`sendResponse` (if any), whether `cleaner.clearAll()` was invoked, and the
listener's boolean return value (`true` = respond asynchronously). -/
structure MessageOutcome where
  response : Option MessageResponse
  clearAllInvoked : Bool
  asyncResponse : Bool
deriving DecidableEq, Repr

/-- `EventHandler.handleDeleteDataRequest`: the response sent once the
`clearAll()` promise settles, where `clearAllResult` is `.ok ()` on
fulfilment and `.error msg` on rejection with an error whose message
is `msg`. -/
def handleDeleteDataRequest (clearAllResult : Except String Unit) :
    MessageResponse :=
  match clearAllResult with
  | .ok _ => { success := true, error := none }
  | .error msg => { success := false, error := some msg }

/-- `EventHandler.handleMessage`. -/
def handleMessage (runtimeId : String) (request : MessageRequest)
    (sender : Sender) (clearAllResult : Except String Unit) : MessageOutcome :=
  if isValidSender runtimeId sender = false then
    { response := some { success := false, error := some "Unauthorized" }
      clearAllInvoked := false
      asyncResponse := false }
  else if request.action == "deleteData" then
    { response := some (handleDeleteDataRequest clearAllResult)
      clearAllInvoked := true
      asyncResponse := true }
  else
    { response := none, clearAllInvoked := false, asyncResponse := false }

/-- `EventHandler.checkIfLastWindow`: the host has already removed the closed
window from the query result, so "last window" is exactly "no normal
windows remain". (The `closedWindowId` argument is only logged.) -/
def checkIfLastWindow (openNormalWindows : List Nat) : Bool :=
  openNormalWindows.isEmpty

/-- The observable effect of one `handleWindowCloseEvent` call. -/
structure WindowCloseOutcome where
  loaded : Settings
  clearAllInvoked : Bool
deriving DecidableEq, Repr

/-- `EventHandler.handleWindowCloseEvent`: reloads the settings from the
persistent store (`await this.settings.load()`), then decides on the
reloaded `runOnClose` and the set of remaining open normal windows.
`staleSettings` is the in-memory settings value before the reload. -/
def handleWindowCloseEvent (staleSettings : Settings)
    (persisted : StoredResult) (openNormalWindows : List Nat) :
    WindowCloseOutcome :=
  let s := applyLoadedSettings persisted
  if s.runOnClose = false then
    { loaded := s, clearAllInvoked := false }
  else if checkIfLastWindow openNormalWindows then
    { loaded := s, clearAllInvoked := true }
  else
    { loaded := s, clearAllInvoked := false }

end EventHandler

/-! ### `utils.js` -/

/-- The `{valid, error}` object returned by `validateDomainName`. -/
structure ValidationResult where
  valid : Bool
  error : Option String
deriving DecidableEq, Repr

/-- `validateDomainName` from `utils.js`: nine checks in source order, each
returning early with its own error message. -/
def validateDomainName (domain : String) : ValidationResult :=
  if domain.data.isEmpty then
    { valid := false, error := some "ドメインが空です" }
  else if 253 < domain.length then
    { valid := false, error := some "ドメイン名が長すぎます（253文字以内）" }
  else if domain.data.any isDangerousChar then
    { valid := false, error := some "不正な文字が含まれています" }
  else if jsContainsChar domain '*' then
    { valid := false, error := some "ワイルドカード(*)は使用できません" }
  else if !(domain.data.all isAsciiChar) then
    { valid := false, error := some "ASCII文字のみ使用できます" }
  else if !(domainRegexTest domain) then
    { valid := false, error := some "ドメイン名の形式が不正です" }
  else if hasConsecutive '.' domain.data then
    { valid := false, error := some "連続するドットは使用できません" }
  else if jsStartsWith domain '.' || jsEndsWith domain '.' then
    { valid := false, error := some "ドメインの先頭または末尾にドットは使用できません" }
  else if (splitOnChar '.' domain.data).any (fun label => 63 < label.length) then
    { valid := false, error := some "ドメインラベルが長すぎます（63文字以内）" }
  else
    { valid := true, error := none }

/-- `isValidFlag` from `utils.js`: only the literal strings `"0"` and `"1"`. -/
def isValidFlag (flagValue : String) : Bool :=
  flagValue == "0" || flagValue == "1"

/-- JavaScript `parseInt` restricted to the flag strings that reach it in
`parseWhitelistLine` (after `isValidFlag`, only `"0"` and `"1"`). -/
def parseFlagNat (s : String) : Nat :=
  if s == "1" then 1 else 0

/-- The `{success, entry, error}` result of `parseWhitelistLine`:
`success: true` carries the entry, `success: false` carries the error. -/
inductive ParseOutcome where
  | ok (entry : WhitelistEntry)
  | err (msg : String)
deriving DecidableEq, Repr

/-- `line.split(',').map(p => p.trim())` from `parseWhitelistLine`. -/
def trimmedParts (line : String) : List String :=
  (splitOnChar ',' line.data).map (fun p => (⟨jsTrim p⟩ : String))

/-- `parseWhitelistLine` from `utils.js`: split the line on commas, trim each
part, validate the domain (part 0) first, then dispatch on the part count. -/
def parseWhitelistLine (line : String) (lineIndex : Nat) : ParseOutcome :=
  let lineNumber := lineIndex + 1
  let parts := trimmedParts line
  let domain := parts.head?.getD ""
  let validation := validateDomainName domain
  if validation.valid = false then
    .err ("行" ++ toString lineNumber ++ ": " ++ validation.error.getD "" ++
      " (" ++ line ++ ")")
  else if parts.length = 1 then
    .ok { domain := domain, keepCookies := 1, keepCache := 1 }
  else if parts.length = 3 then
    let keepCookiesStr := parts[1]?.getD ""
    let keepCacheStr := parts[2]?.getD ""
    if !(isValidFlag keepCookiesStr && isValidFlag keepCacheStr) then
      .err ("行" ++ toString lineNumber ++
        ": フラグは 0 または 1 で指定してください (" ++ line ++ ")")
    else
      .ok { domain := domain
            keepCookies := parseFlagNat keepCookiesStr
            keepCache := parseFlagNat keepCacheStr }
  else
    .err ("行" ++ toString lineNumber ++ ": フォーマットが不正です (" ++ line ++ ")")

/-! ### `options.js` -/

/-- The whitelist-to-text serialization in the `DOMContentLoaded` handler of
`options.js`: one line per entry, flags rendered through JavaScript
truthiness (`entry[flag] ? 1 : 0`). -/
def serializeWhitelistLine (entry : WhitelistEntry) : String :=
  entry.domain ++ "," ++ (if entry.keepCookies = 0 then "0" else "1") ++ "," ++
    (if entry.keepCache = 0 then "0" else "1")

/-! ### Spec-side definitions

These render the specification's wording, to be compared with the
definitions translated from the source. -/

/-- A label per the spec's words: "each alphanumeric possibly hyphenated but
not starting or ending with a hyphen", at most 63 characters. -/
def specLabelOk (cs : List Char) : Bool :=
  decide (1 ≤ cs.length) && decide (cs.length ≤ 63) && cs.all isLabelChar &&
    !(decide (cs.head? = some '-')) && !(decide (cs.getLast? = some '-'))

/-- The final label per the spec's words: "final label at least 2 letters,
case-insensitive", at most 63 characters. -/
def specTldOk (cs : List Char) : Bool :=
  decide (2 ≤ cs.length) && decide (cs.length ≤ 63) &&
    cs.all (fun c => isAsciiLowerChar c || isAsciiUpperChar c)

/-- The spec's label/TLD rules for a whole domain: one or more dot-separated
labels then a final TLD label, total length at most 253. -/
def domainSpecOk (domain : String) : Bool :=
  let parts := splitOnChar '.' domain.data
  decide (2 ≤ parts.length) && parts.dropLast.all specLabelOk &&
    specTldOk (parts.getLast?.getD []) && decide (domain.length ≤ 253)

/-- The nine checks of `validateDomainName` in source order, each as its raw
condition (evaluated independently of the others) paired with its error
message. -/
def domainCheckErrors (domain : String) : List (Bool × String) :=
  [ (domain.data.isEmpty, "ドメインが空です"),
    (decide (253 < domain.length), "ドメイン名が長すぎます（253文字以内）"),
    (domain.data.any isDangerousChar, "不正な文字が含まれています"),
    (jsContainsChar domain '*', "ワイルドカード(*)は使用できません"),
    (!(domain.data.all isAsciiChar), "ASCII文字のみ使用できます"),
    (!(domainRegexTest domain), "ドメイン名の形式が不正です"),
    (hasConsecutive '.' domain.data, "連続するドットは使用できません"),
    (jsStartsWith domain '.' || jsEndsWith domain '.',
      "ドメインの先頭または末尾にドットは使用できません"),
    ((splitOnChar '.' domain.data).any (fun label => 63 < label.length),
      "ドメインラベルが長すぎます（63文字以内）") ]

/-- The error of the first failing check in a check list. -/
def firstError : List (Bool × String) → Option String
  | [] => none
  | (b, e) :: rest => if b then some e else firstError rest

/-! ### Lemmas about `splitOnChar`, `joinSep` and `jsTrim` -/

theorem splitOnChar_ne_nil (sep : Char) (cs : List Char) :
    splitOnChar sep cs ≠ [] := by
  cases cs with
  | nil => simp [splitOnChar]
  | cons c rest =>
    simp only [splitOnChar]
    split
    · simp
    · split <;> simp

theorem joinSep_splitOnChar (sep : Char) (cs : List Char) :
    joinSep sep (splitOnChar sep cs) = cs := by
  induction cs with
  | nil => rfl
  | cons c rest ih =>
    obtain ⟨p, ps, hps⟩ := List.exists_cons_of_ne_nil (splitOnChar_ne_nil sep rest)
    by_cases hc : c = sep
    · subst hc
      simp only [splitOnChar, if_pos rfl]
      rw [hps] at ih ⊢
      simpa [joinSep] using ih
    · simp only [splitOnChar, if_neg hc, hps]
      rw [hps] at ih
      cases ps with
      | nil => simpa [joinSep] using ih
      | cons q qs => simpa [joinSep] using ih

theorem not_mem_of_mem_splitOnChar {sep : Char} {cs : List Char} {p : List Char}
    (hp : p ∈ splitOnChar sep cs) : sep ∉ p := by
  induction cs generalizing p with
  | nil =>
    simp only [splitOnChar, List.mem_singleton] at hp
    subst hp
    simp
  | cons c rest ih =>
    by_cases hc : c = sep
    · subst hc
      simp only [splitOnChar, if_true, eq_self_iff_true, List.mem_cons] at hp
      rcases hp with hp | hp
      · simp [hp]
      · exact ih hp
    · obtain ⟨q, qs, hqs⟩ := List.exists_cons_of_ne_nil (splitOnChar_ne_nil sep rest)
      simp only [splitOnChar, if_neg hc, hqs, List.mem_cons] at hp
      rcases hp with hp | hp
      · subst hp
        intro hmem
        rcases List.mem_cons.mp hmem with h | h
        · exact hc h.symm
        · exact ih (hqs ▸ List.mem_cons_self q qs) h
      · exact ih (hqs ▸ List.mem_cons_of_mem q hp)

theorem mem_joinSep {sep : Char} {ps : List (List Char)} {c : Char}
    (hc : c ∈ joinSep sep ps) : c = sep ∨ ∃ p ∈ ps, c ∈ p := by
  induction ps with
  | nil => simp [joinSep] at hc
  | cons p ps ih =>
    cases ps with
    | nil =>
      simp only [joinSep] at hc
      exact Or.inr ⟨p, by simp, hc⟩
    | cons q qs =>
      simp only [joinSep, List.mem_append, List.mem_cons] at hc
      rcases hc with hc | hc | hc
      · exact Or.inr ⟨p, by simp, hc⟩
      · exact Or.inl hc
      · rcases ih hc with h | ⟨r, hr, hcr⟩
        · exact Or.inl h
        · exact Or.inr ⟨r, List.mem_cons_of_mem p hr, hcr⟩

theorem hasConsecutive_eq_false_of_not_mem {sep : Char} {l : List Char}
    (h : sep ∉ l) : hasConsecutive sep l = false := by
  induction l with
  | nil => rfl
  | cons a l ih =>
    cases l with
    | nil => rfl
    | cons b l =>
      simp only [hasConsecutive, Bool.or_eq_false_iff, Bool.and_eq_false_iff]
      refine ⟨Or.inl ?_, ih (fun h' => h (List.mem_cons_of_mem a h'))⟩
      simp only [decide_eq_false_iff_not]
      exact fun h' => h (by simp [h'])

theorem joinSep_ne_nil {sep : Char} {ps : List (List Char)} (hne : ps ≠ [])
    (h : ∀ p ∈ ps, p ≠ []) : joinSep sep ps ≠ [] := by
  cases ps with
  | nil => exact absurd rfl hne
  | cons p ps =>
    cases ps with
    | nil => exact h p (by simp)
    | cons q qs =>
      simp only [joinSep]
      intro hcontra
      exact h p (by simp) (List.append_eq_nil.mp hcontra).1

theorem hasConsecutive_append {sep : Char} {xs ys : List Char}
    (hx : hasConsecutive sep xs = false) (hy : hasConsecutive sep ys = false)
    (hb : ¬(xs.getLast? = some sep ∧ ys.head? = some sep)) :
    hasConsecutive sep (xs ++ ys) = false := by
  induction xs with
  | nil => simpa using hy
  | cons a xs ih =>
    cases xs with
    | nil =>
      cases ys with
      | nil => rfl
      | cons b ys =>
        simp only [List.getLast?_singleton, List.head?_cons] at hb
        simp only [List.cons_append, List.nil_append, hasConsecutive,
          Bool.or_eq_false_iff, Bool.and_eq_false_iff]
        constructor
        · by_cases hasep : a = sep
          · right
            subst hasep
            simpa using fun hbsep => hb ⟨rfl, by simp [hbsep]⟩
          · left
            simpa using hasep
        · simpa using hy
    | cons b xs =>
      simp only [hasConsecutive, Bool.or_eq_false_iff, Bool.and_eq_false_iff] at hx
      have htail : hasConsecutive sep ((b :: xs) ++ ys) = false := by
        refine ih hx.2 ?_
        simpa [List.getLast?_cons_cons] using hb
      simp only [List.cons_append, hasConsecutive, Bool.or_eq_false_iff,
        Bool.and_eq_false_iff]
      constructor
      · simpa using hx.1
      · simpa using htail

theorem joinSep_props {sep : Char} {ps : List (List Char)} (hne : ps ≠ [])
    (h : ∀ p ∈ ps, p ≠ [] ∧ sep ∉ p) :
    hasConsecutive sep (joinSep sep ps) = false ∧
      (joinSep sep ps).head? ≠ some sep ∧
      (joinSep sep ps).getLast? ≠ some sep := by
  induction ps with
  | nil => exact absurd rfl hne
  | cons p ps ih =>
    obtain ⟨hpne, hpsep⟩ := h p (by simp)
    cases ps with
    | nil =>
      refine ⟨hasConsecutive_eq_false_of_not_mem hpsep, ?_, ?_⟩
      · simp only [joinSep]
        intro hcontra
        exact hpsep (List.mem_of_mem_head? hcontra)
      · simp only [joinSep]
        intro hcontra
        exact hpsep (List.mem_of_getLast?_eq_some hcontra)
    | cons q qs =>
      have hrest := ih (by simp) (fun r hr => h r (List.mem_cons_of_mem p hr))
      have hjoin_ne : joinSep sep (q :: qs) ≠ [] :=
        joinSep_ne_nil (by simp) (fun r hr => (h r (List.mem_cons_of_mem p hr)).1)
      refine ⟨?_, ?_, ?_⟩
      · show hasConsecutive sep (p ++ sep :: joinSep sep (q :: qs)) = false
        refine hasConsecutive_append (hasConsecutive_eq_false_of_not_mem hpsep) ?_ ?_
        · obtain ⟨j, js, hjs⟩ := List.exists_cons_of_ne_nil hjoin_ne
          rw [hjs] at hrest ⊢
          simp only [hasConsecutive, Bool.or_eq_false_iff, Bool.and_eq_false_iff]
          refine ⟨Or.inr ?_, hrest.1⟩
          simp only [decide_eq_false_iff_not]
          intro hj
          exact hrest.2.1 (by simp [hj])
        · rintro ⟨hlast, _⟩
          exact hpsep (List.mem_of_getLast?_eq_some hlast)
      · show (p ++ sep :: joinSep sep (q :: qs)).head? ≠ some sep
        obtain ⟨a, as, has⟩ := List.exists_cons_of_ne_nil hpne
        subst has
        simp only [List.cons_append, List.head?_cons]
        intro hcontra
        exact hpsep (by simp [Option.some.inj hcontra])
      · show (p ++ sep :: joinSep sep (q :: qs)).getLast? ≠ some sep
        obtain ⟨j, js, hjs⟩ := List.exists_cons_of_ne_nil hjoin_ne
        rw [hjs] at hrest ⊢
        obtain ⟨b, hb⟩ := Option.isSome_iff_exists.mp
          (List.getLast?_isSome.mpr (by simp : (j :: js) ≠ []))
        rw [List.getLast?_append, List.getLast?_cons_cons, hb]
        intro hcontra
        exact hrest.2.2 (hb.trans hcontra)

theorem splitOnChar_of_not_mem {sep : Char} {cs : List Char} (h : sep ∉ cs) :
    splitOnChar sep cs = [cs] := by
  induction cs with
  | nil => rfl
  | cons c rest ih =>
    have hc : ¬(c = sep) := fun h' => h (by simp [h'])
    have hrest : sep ∉ rest := fun h' => h (List.mem_cons_of_mem c h')
    simp only [splitOnChar, if_neg hc, ih hrest]

theorem splitOnChar_append_not_mem {sep : Char} {xs ys : List Char}
    (h : sep ∉ xs) :
    splitOnChar sep (xs ++ sep :: ys) = xs :: splitOnChar sep ys := by
  induction xs with
  | nil =>
    obtain ⟨p, ps, hps⟩ := List.exists_cons_of_ne_nil (splitOnChar_ne_nil sep ys)
    simp [splitOnChar]
  | cons c rest ih =>
    have hc : ¬(c = sep) := fun h' => h (by simp [h'])
    have hrest : sep ∉ rest := fun h' => h (List.mem_cons_of_mem c h')
    simp only [List.cons_append, splitOnChar, if_neg hc, List.append_eq, ih hrest]

theorem dropWhile_eq_self_of_none {p : Char → Bool} {cs : List Char}
    (h : ∀ c ∈ cs, p c = false) : cs.dropWhile p = cs := by
  cases cs with
  | nil => rfl
  | cons c rest =>
    rw [List.dropWhile_cons, h c (by simp)]
    simp

theorem jsTrim_eq_self {cs : List Char}
    (h : ∀ c ∈ cs, isJsWhitespaceChar c = false) : jsTrim cs = cs := by
  unfold jsTrim
  rw [dropWhile_eq_self_of_none h,
    dropWhile_eq_self_of_none (fun c hc => h c (List.mem_reverse.mp hc)),
    List.reverse_reverse]

theorem char_eq_iff_toNat {c d : Char} : c = d ↔ c.toNat = d.toNat := by
  constructor
  · intro h
    rw [h]
  · intro h
    have h1 := Char.ofNat_toNat c
    have h2 := Char.ofNat_toNat d
    rw [h] at h1
    exact h1.symm.trans h2

theorem isLabelChar_iff {c : Char} :
    isLabelChar c = true ↔
      (c.toNat = 45 ∨ (48 ≤ c.toNat ∧ c.toNat ≤ 57) ∨
        (65 ≤ c.toNat ∧ c.toNat ≤ 90) ∨ (97 ≤ c.toNat ∧ c.toNat ≤ 122)) := by
  have h45 : ('-' : Char).toNat = 45 := by decide
  simp only [isLabelChar, isAlnumChar, isAsciiLowerChar, isAsciiUpperChar,
    isAsciiDigitChar, Bool.or_eq_true, decide_eq_true_eq, char_eq_iff_toNat, h45]
  omega

/-- Every character a `DOMAIN_REGEX`-accepted domain can contain (label
characters and the dot) passes the dangerous-character, wildcard and
ASCII checks, is not JavaScript whitespace, and is not a comma. -/
theorem labelOrDotChar_props {c : Char} (h : isLabelChar c = true ∨ c = '.') :
    isDangerousChar c = false ∧ isAsciiChar c = true ∧ c ≠ '*' ∧
      isJsWhitespaceChar c = false ∧ c ≠ ',' := by
  have h46 : ('.' : Char).toNat = 46 := by decide
  have h42 : ('*' : Char).toNat = 42 := by decide
  have h44 : (',' : Char).toNat = 44 := by decide
  have hb : c.toNat = 46 ∨ c.toNat = 45 ∨ (48 ≤ c.toNat ∧ c.toNat ≤ 57) ∨
      (65 ≤ c.toNat ∧ c.toNat ≤ 90) ∨ (97 ≤ c.toNat ∧ c.toNat ≤ 122) := by
    rcases h with h | h
    · rcases isLabelChar_iff.mp h with h | h | h | h <;> omega
    · rw [char_eq_iff_toNat, h46] at h
      omega
  refine ⟨?_, ?_, ?_, ?_, ?_⟩
  · simp only [isDangerousChar, decide_eq_false_iff_not]
    omega
  · simp only [isAsciiChar, decide_eq_true_eq]
    omega
  · rw [Ne, char_eq_iff_toNat, h42]
    omega
  · simp only [isJsWhitespaceChar, decide_eq_false_iff_not]
    omega
  · rw [Ne, char_eq_iff_toNat, h44]
    omega

theorem isLabelChar_of_alnum {c : Char} (h : isAlnumChar c = true) :
    isLabelChar c = true := by
  simp [isLabelChar, h]

theorem isAlnumChar_ne_dash {c : Char} (h : isAlnumChar c = true) : c ≠ '-' := by
  have h45 : ('-' : Char).toNat = 45 := by decide
  simp only [isAlnumChar, isAsciiLowerChar, isAsciiUpperChar, isAsciiDigitChar,
    Bool.or_eq_true, decide_eq_true_eq] at h
  rw [Ne, char_eq_iff_toNat, h45]
  omega

theorem isAlnumChar_of_labelChar_ne_dash {c : Char} (h : isLabelChar c = true)
    (hd : c ≠ '-') : isAlnumChar c = true := by
  simp only [isLabelChar, Bool.or_eq_true, decide_eq_true_eq] at h
  rcases h with h | h
  · exact h
  · exact absurd h hd

theorem isLabelChar_of_letter {c : Char}
    (h : (isAsciiLowerChar c || isAsciiUpperChar c) = true) :
    isLabelChar c = true := by
  simp only [Bool.or_eq_true] at h
  simp only [isLabelChar, isAlnumChar, Bool.or_eq_true]
  tauto

theorem isValidLabelChars_spec {p : List Char} (h : isValidLabelChars p = true) :
    p ≠ [] ∧ (∀ c ∈ p, isLabelChar c = true) ∧ p.length ≤ 63 := by
  unfold isValidLabelChars at h
  split at h
  · rename_i a b hh hl
    simp only [Bool.and_eq_true, decide_eq_true_eq, List.all_eq_true] at h
    obtain ⟨⟨⟨ha, hb⟩, hall⟩, hlen⟩ := h
    refine ⟨?_, hall, hlen⟩
    intro hnil
    rw [hnil] at hh
    simp at hh
  · simp at h

theorem isValidTldChars_spec {p : List Char} (h : isValidTldChars p = true) :
    p ≠ [] ∧ 2 ≤ p.length ∧ ∀ c ∈ p, isLabelChar c = true := by
  simp only [isValidTldChars, Bool.and_eq_true, decide_eq_true_eq,
    List.all_eq_true] at h
  refine ⟨?_, h.1, fun c hc => isLabelChar_of_letter (h.2 c hc)⟩
  intro hnil
  rw [hnil] at h
  simp at h

theorem domainRegexTest_iff {d : String} :
    domainRegexTest d = true ↔
      2 ≤ (splitOnChar '.' d.data).length ∧
        (∀ p ∈ (splitOnChar '.' d.data).dropLast, isValidLabelChars p = true) ∧
        isValidTldChars ((splitOnChar '.' d.data).getLast?.getD []) = true := by
  simp only [domainRegexTest, Bool.and_eq_true, decide_eq_true_eq,
    List.all_eq_true]
  tauto

theorem mem_dropLast_or_getLast {α : Type} {l : List α} {p : α} (hne : l ≠ [])
    (hp : p ∈ l) : p ∈ l.dropLast ∨ l.getLast? = some p := by
  rw [← List.dropLast_append_getLast hne] at hp
  rcases List.mem_append.mp hp with h | h
  · exact Or.inl h
  · right
    rw [List.getLast?_eq_getLast l hne]
    rw [List.mem_singleton] at h
    rw [h]

theorem domainRegex_parts_facts {d : String} (h : domainRegexTest d = true) :
    ∀ p ∈ splitOnChar '.' d.data, p ≠ [] ∧ ∀ c ∈ p, isLabelChar c = true := by
  obtain ⟨hlen, hlabels, htld⟩ := domainRegexTest_iff.mp h
  intro p hp
  rcases mem_dropLast_or_getLast (splitOnChar_ne_nil '.' d.data) hp with hmem | hlast
  · obtain ⟨hne, hchars, _⟩ := isValidLabelChars_spec (hlabels p hmem)
    exact ⟨hne, hchars⟩
  · rw [hlast] at htld
    obtain ⟨hne, _, hchars⟩ := isValidTldChars_spec htld
    exact ⟨hne, hchars⟩

theorem domainRegex_char_class {d : String} (h : domainRegexTest d = true) :
    ∀ c ∈ d.data, isLabelChar c = true ∨ c = '.' := by
  intro c hc
  rw [← joinSep_splitOnChar '.' d.data] at hc
  rcases mem_joinSep hc with h1 | ⟨p, hp, hcp⟩
  · exact Or.inr h1
  · exact Or.inl ((domainRegex_parts_facts h p hp).2 c hcp)

theorem domainRegex_passes_checks {d : String} (h : domainRegexTest d = true) :
    d.data.any isDangerousChar = false ∧ jsContainsChar d '*' = false ∧
      d.data.all isAsciiChar = true ∧ hasConsecutive '.' d.data = false ∧
      jsStartsWith d '.' = false ∧ jsEndsWith d '.' = false ∧ d.data ≠ [] := by
  have hclass := domainRegex_char_class h
  have hfacts : ∀ c ∈ d.data, isDangerousChar c = false ∧ isAsciiChar c = true ∧
      c ≠ '*' := by
    intro c hc
    obtain ⟨h1, h2, h3, _, _⟩ := labelOrDotChar_props (hclass c hc)
    exact ⟨h1, h2, h3⟩
  have hjprops : hasConsecutive '.' (joinSep '.' (splitOnChar '.' d.data)) = false ∧
      (joinSep '.' (splitOnChar '.' d.data)).head? ≠ some '.' ∧
      (joinSep '.' (splitOnChar '.' d.data)).getLast? ≠ some '.' := by
    refine joinSep_props (splitOnChar_ne_nil '.' d.data) ?_
    intro p hp
    exact ⟨(domainRegex_parts_facts h p hp).1, not_mem_of_mem_splitOnChar hp⟩
  rw [joinSep_splitOnChar '.' d.data] at hjprops
  have hne : d.data ≠ [] := by
    intro hnil
    obtain ⟨hlen, -, -⟩ := domainRegexTest_iff.mp h
    rw [hnil] at hlen
    simp [splitOnChar] at hlen
  refine ⟨?_, ?_, ?_, hjprops.1, ?_, ?_, hne⟩
  · rw [List.any_eq_false]
    intro c hc
    simp [(hfacts c hc).1]
  · rw [jsContainsChar, List.any_eq_false]
    intro c hc
    simp [(hfacts c hc).2.2]
  · rw [List.all_eq_true]
    intro c hc
    exact (hfacts c hc).2.1
  · simp only [jsStartsWith, decide_eq_false_iff_not]
    exact hjprops.2.1
  · simp only [jsEndsWith, decide_eq_false_iff_not]
    exact hjprops.2.2

theorem validateDomainName_valid_iff {d : String} :
    (validateDomainName d).valid = true ↔
      (d.length ≤ 253 ∧ domainRegexTest d = true ∧
        ∀ p ∈ splitOnChar '.' d.data, p.length ≤ 63) := by
  constructor
  · intro h
    unfold validateDomainName at h
    split_ifs at h with h1 h2 h3 h4 h5 h6 h7 h8 h9 <;>
      simp_all
  · rintro ⟨hlen, hregex, hlabels⟩
    obtain ⟨hdang, hstar, hascii, hdots, hstart, hend, hne⟩ :=
      domainRegex_passes_checks hregex
    have e1 : d.data.isEmpty = false := by
      cases hd : d.data with
      | nil => exact absurd hd hne
      | cons a as => rfl
    have e2 : ¬(253 < d.length) := by omega
    have e9 : ((splitOnChar '.' d.data).any (fun label => 63 < label.length)) =
        false := by
      rw [List.any_eq_false]
      intro p hp
      have := hlabels p hp
      simp only [decide_eq_true_eq]
      omega
    simp [validateDomainName, e1, e2, e9, hdang, hstar, hascii, hregex, hdots,
      hstart, hend]


theorem specLabelOk_eq_isValidLabelChars (p : List Char) :
    specLabelOk p = isValidLabelChars p := by
  cases p with
  | nil => rfl
  | cons a as =>
    obtain ⟨b, hb⟩ := Option.isSome_iff_exists.mp
      (List.getLast?_isSome.mpr (by simp : (a :: as) ≠ ([] : List Char)))
    have hbmem : b ∈ a :: as := List.mem_of_getLast?_eq_some hb
    unfold specLabelOk isValidLabelChars
    rw [hb]
    simp only [List.head?_cons]
    rw [Bool.eq_iff_iff]
    simp only [Bool.and_eq_true, Bool.not_eq_true', decide_eq_false_iff_not,
      decide_eq_true_eq, List.all_eq_true, Option.some.injEq]
    constructor
    · rintro ⟨⟨⟨⟨-, hlen⟩, hall⟩, hda⟩, hdb⟩
      exact ⟨⟨⟨isAlnumChar_of_labelChar_ne_dash (hall a (by simp)) hda,
        isAlnumChar_of_labelChar_ne_dash (hall b hbmem) hdb⟩, hall⟩, hlen⟩
    · rintro ⟨⟨⟨ha, hbn⟩, hall⟩, hlen⟩
      exact ⟨⟨⟨⟨by simp, hlen⟩, hall⟩, isAlnumChar_ne_dash ha⟩,
        isAlnumChar_ne_dash hbn⟩

theorem specTldOk_iff {p : List Char} :
    specTldOk p = true ↔ (isValidTldChars p = true ∧ p.length ≤ 63) := by
  simp only [specTldOk, isValidTldChars, Bool.and_eq_true, decide_eq_true_eq]
  tauto

/-- The spec's label/TLD rules coincide with the conjunction of the three
checks of `validateDomainName` that can actually reject (length 253,
`DOMAIN_REGEX`, per-label 63). -/
theorem domainSpecOk_iff {d : String} :
    domainSpecOk d = true ↔
      (d.length ≤ 253 ∧ domainRegexTest d = true ∧
        ∀ p ∈ splitOnChar '.' d.data, p.length ≤ 63) := by
  have hne := splitOnChar_ne_nil '.' d.data
  obtain ⟨tld, htld⟩ := Option.isSome_iff_exists.mp (List.getLast?_isSome.mpr hne)
  have htldmem : tld ∈ splitOnChar '.' d.data := List.mem_of_getLast?_eq_some htld
  simp only [domainSpecOk, domainRegexTest, Bool.and_eq_true, decide_eq_true_eq,
    List.all_eq_true, specTldOk_iff.symm]
  rw [htld]
  simp only [Option.getD_some, specTldOk_iff]
  constructor
  · rintro ⟨⟨⟨hlen2, hlab⟩, htldok, htld63⟩, h253⟩
    refine ⟨h253, ⟨⟨hlen2, ?_⟩, htldok⟩, ?_⟩
    · intro p hp
      rw [← specLabelOk_eq_isValidLabelChars]
      exact hlab p hp
    · intro p hp
      rcases mem_dropLast_or_getLast hne hp with hmem | hlast
    -- a non-final label is bounded by its label rule, the final by the TLD rule
      · have hv : isValidLabelChars p = true := by
          rw [← specLabelOk_eq_isValidLabelChars]
          exact hlab p hmem
        exact (isValidLabelChars_spec hv).2.2
      · rw [htld] at hlast
        cases Option.some.inj hlast
        exact htld63
  · rintro ⟨h253, ⟨⟨hlen2, hlab⟩, htldok⟩, hall63⟩
    refine ⟨⟨⟨hlen2, ?_⟩, htldok, hall63 tld htldmem⟩, h253⟩
    intro p hp
    rw [specLabelOk_eq_isValidLabelChars]
    exact hlab p hp

/-- `validateDomainName` returns exactly the error of the first failing check
in the fixed source order. -/
theorem validateDomainName_eq_firstError (d : String) :
    validateDomainName d =
      (match firstError (domainCheckErrors d) with
       | some e => { valid := false, error := some e }
       | none => { valid := true, error := none }) := by
  unfold validateDomainName domainCheckErrors
  simp only [firstError]
  cases h1 : d.data.isEmpty
  · by_cases h2 : 253 < d.length
    · simp [h1, h2]
    · cases h3 : d.data.any isDangerousChar
      · cases h4 : jsContainsChar d '*'
        · cases h5 : d.data.all isAsciiChar
          · simp [h1, h2, h3, h4, h5]
          · cases h6 : domainRegexTest d
            · simp [h1, h2, h3, h4, h5, h6]
            · cases h7 : hasConsecutive '.' d.data
              · cases h8 : (jsStartsWith d '.' || jsEndsWith d '.')
                · cases h9 : (splitOnChar '.' d.data).any
                      (fun label => 63 < label.length)
                  · simp [h1, h2, h3, h4, h5, h6, h7, h8, h9]
                  · simp [h1, h2, h3, h4, h5, h6, h7, h8, h9]
                · simp [h1, h2, h3, h4, h5, h6, h7, h8]
              · simp [h1, h2, h3, h4, h5, h6, h7]
        · simp [h1, h2, h3, h4]
      · simp [h1, h2, h3]
  · simp [h1]

theorem filter_flatMap {α β : Type} (l : List α) (p : α → Bool)
    (f : α → List β) :
    (l.filter p).flatMap f = l.flatMap (fun x => if p x then f x else []) := by
  induction l with
  | nil => rfl
  | cons a l ih =>
    cases hp : p a <;> simp [List.filter_cons, hp, ih]

/-- A domain `validateDomainName` accepts contains no comma and no
JavaScript whitespace; hence serializing it into a whitelist line and
splitting that line on commas recovers it intact. -/
theorem valid_domain_chars {d : String}
    (h : (validateDomainName d).valid = true) :
    ',' ∉ d.data ∧ ∀ c ∈ d.data, isJsWhitespaceChar c = false := by
  have hregex := (validateDomainName_valid_iff.mp h).2.1
  have hclass := domainRegex_char_class hregex
  constructor
  · intro hc
    obtain ⟨-, -, -, -, hcomma⟩ := labelOrDotChar_props (hclass ',' hc)
    exact hcomma rfl
  · intro c hc
    exact (labelOrDotChar_props (hclass c hc)).2.2.2.1

/-! ### Claim theorems -/

/-- C1: for every `Settings` value, `clearAll` runs three removal passes:
a bulk pass that always removes app cache and conditionally removes
downloads, form data and history per the flags, with `since: 0` and no
origin exclusions; a cookie pass that performs no removal call when
`removeCookies` is off and otherwise removes cookies since 0 excluding
exactly `getOriginsByFlag(keepCookies)`; and a cache/storage pass that
performs no removal call when `removeCacheAndStorage` is off and otherwise
removes the seven storage types since 0 excluding exactly
`getOriginsByFlag(keepCache)`. -/
theorem C1_clearAll_three_passes (s : Settings) :
    DataCleaner.clearAll s =
      [ { options := { since := 0, excludeOrigins := [] }
          dataTypes := { appcache := true, downloads := s.removeDownloads
                         formData := s.removeFormData
                         history := s.removeHistory } } ]
      ++ (if s.removeCookies then
            [ { options := { since := 0
                             excludeOrigins := getOriginsByFlag s .keepCookies }
                dataTypes := { cookies := true } } ]
          else [])
      ++ (if s.removeCacheAndStorage then
            [ { options := { since := 0
                             excludeOrigins := getOriginsByFlag s .keepCache }
                dataTypes := { cacheStorage := true, cache := true
                               fileSystems := true, indexedDB := true
                               localStorage := true, serviceWorkers := true
                               webSQL := true } } ]
          else []) := by
  cases hc : s.removeCookies <;> cases hs : s.removeCacheAndStorage <;>
    simp [DataCleaner.clearAll, DataCleaner.removeBulkData,
      DataCleaner.removeCookies, DataCleaner.removeCacheAndStorage, hc, hs]

/-- C2: `getOriginsByFlag` returns, in whitelist order, for exactly the
entries whose flag equals the number 1, the origins `https://{domain}` then
`http://{domain}` with the domain trimmed; any other flag value contributes
nothing. On the two-entry example whitelist with flag `keepCookies` the
result is exactly `["https://a.com", "http://a.com"]`. -/
theorem C2_getOriginsByFlag (s : Settings) (flagName : FlagName) :
    getOriginsByFlag s flagName =
      s.whitelist.flatMap (fun entry =>
        if lookupFlag entry flagName = 1 then
          ["https://" ++ jsTrimStr entry.domain, "http://" ++ jsTrimStr entry.domain]
        else []) ∧
    getOriginsByFlag
      { initializeDefaults with whitelist :=
          [ { domain := "a.com", keepCookies := 1, keepCache := 0 },
            { domain := "b.com", keepCookies := 0, keepCache := 1 } ] }
      .keepCookies = ["https://a.com", "http://a.com"] := by
  constructor
  · rw [getOriginsByFlag, filter_flatMap]
    simp only [beq_iff_eq]
  · rfl

/-- C3: the startup handler is idempotent: a set session guard makes it a
no-op; an unset guard with `runOnStartup` on runs `clearAll` once and then
sets the guard (so two calls in one session invoke the removal capability
at most once); `runOnStartup` off neither cleans nor sets the guard; and
the guard is set only after a successful full run. -/
theorem C3_startup_idempotent (runOnStartup clearAllOk : Bool)
    (st : EventHandler.SessionState) :
    (st.startupCleanExecuted = true →
      EventHandler.handleStartupIfNeeded runOnStartup clearAllOk st = st) ∧
    (st.startupCleanExecuted = false → runOnStartup = true → clearAllOk = true →
      EventHandler.handleStartupIfNeeded runOnStartup clearAllOk st =
        { startupCleanExecuted := true, clearAllRuns := st.clearAllRuns + 1 }) ∧
    (st.startupCleanExecuted = false → runOnStartup = false →
      EventHandler.handleStartupIfNeeded runOnStartup clearAllOk st = st) ∧
    ((EventHandler.handleStartupIfNeeded runOnStartup true
        (EventHandler.handleStartupIfNeeded runOnStartup true st)).clearAllRuns ≤
      st.clearAllRuns + 1) ∧
    (clearAllOk = false →
      (EventHandler.handleStartupIfNeeded runOnStartup clearAllOk
          st).startupCleanExecuted = st.startupCleanExecuted) := by
  obtain ⟨g, n⟩ := st
  cases g <;> cases runOnStartup <;> cases clearAllOk <;>
    simp [EventHandler.handleStartupIfNeeded]

/-- C3 witness: starting from an unset guard with `runOnStartup` on, the
first call runs the cleaner and sets the guard, and a second call within
the same session is a no-op, leaving exactly one `clearAll` run. -/
theorem C3_startup_witness :
    EventHandler.handleStartupIfNeeded true true ⟨false, 0⟩ = ⟨true, 1⟩ ∧
    EventHandler.handleStartupIfNeeded true true
      (EventHandler.handleStartupIfNeeded true true ⟨false, 0⟩) = ⟨true, 1⟩ := by
  have h1 := (C3_startup_idempotent true true ⟨false, 0⟩).2.1 rfl rfl rfl
  refine ⟨h1, ?_⟩
  rw [h1]
  exact (C3_startup_idempotent true true ⟨true, 1⟩).1 rfl

/-- C4: the window-close handler decides on the settings reloaded from the
persistent store (the pre-reload in-memory value is irrelevant); it is a
no-op when the reloaded `runOnClose` is off, and otherwise invokes
`clearAll` exactly when the set of remaining open normal windows is
empty. -/
theorem C4_window_close (stale stale' : Settings) (persisted : StoredResult)
    (openNormalWindows : List Nat) :
    EventHandler.handleWindowCloseEvent stale persisted openNormalWindows =
      EventHandler.handleWindowCloseEvent stale' persisted openNormalWindows ∧
    (EventHandler.handleWindowCloseEvent stale persisted
        openNormalWindows).loaded = applyLoadedSettings persisted ∧
    ((EventHandler.handleWindowCloseEvent stale persisted
        openNormalWindows).clearAllInvoked = true ↔
      ((applyLoadedSettings persisted).runOnClose = true ∧
        openNormalWindows = [])) := by
  cases hr : (applyLoadedSettings persisted).runOnClose <;>
    cases openNormalWindows <;>
    simp [EventHandler.handleWindowCloseEvent, EventHandler.checkIfLastWindow, hr]

/-- C5: a message whose sender is not the extension itself is rejected with
`{success: false, error: "Unauthorized"}`, `clearAll` is not invoked and
the listener returns `false`; an authorized `deleteData` request invokes
`clearAll` and responds `{success: true}` on completion or
`{success: false, error: message}` on failure. -/
theorem C5_message_auth (runtimeId : String) (request : EventHandler.MessageRequest)
    (sender : EventHandler.Sender) (clearAllResult : Except String Unit) :
    (EventHandler.isValidSender runtimeId sender = false →
      EventHandler.handleMessage runtimeId request sender clearAllResult =
        { response := some { success := false, error := some "Unauthorized" }
          clearAllInvoked := false, asyncResponse := false }) ∧
    (EventHandler.isValidSender runtimeId sender = true →
      request.action = "deleteData" →
      (EventHandler.handleMessage runtimeId request sender
          clearAllResult).clearAllInvoked = true ∧
      (clearAllResult = .ok () →
        (EventHandler.handleMessage runtimeId request sender
            clearAllResult).response =
          some { success := true, error := none }) ∧
      (∀ msg, clearAllResult = .error msg →
        (EventHandler.handleMessage runtimeId request sender
            clearAllResult).response =
          some { success := false, error := some msg })) := by
  constructor
  · intro hinvalid
    simp [EventHandler.handleMessage, hinvalid]
  · intro hvalid haction
    cases clearAllResult <;>
      simp [EventHandler.handleMessage, EventHandler.handleDeleteDataRequest,
        hvalid, haction]

/-- C5 witness: a `deleteData` request from a foreign sender id is rejected
as unauthorized with no `clearAll` invocation. -/
theorem C5_message_witness :
    EventHandler.handleMessage "extension-id" { action := "deleteData" }
        { id := some "other-id" } (.ok ()) =
      { response := some { success := false, error := some "Unauthorized" }
        clearAllInvoked := false, asyncResponse := false } :=
  (C5_message_auth "extension-id" { action := "deleteData" }
    { id := some "other-id" } (.ok ())).1 (by decide)

/-- C8: loading from an empty persisted store yields exactly the documented
defaults (`whitelist []`, `runOnStartup false`, `runOnClose false`, the
five remove flags `true`), and every field is resolved independently with
value-if-not-nullish semantics: a persisted value — including `false` — is
kept, and only an absent value falls back to its default. -/
theorem C8_defaults_nullish :
    applyLoadedSettings emptyStoredResult =
      { whitelist := [], runOnStartup := false, runOnClose := false
        removeDownloads := true, removeFormData := true, removeHistory := true
        removeCookies := true, removeCacheAndStorage := true } ∧
    ∀ (r : StoredResult) (wl : List WhitelistEntry) (b : Bool),
      (r.whitelist = some wl → (applyLoadedSettings r).whitelist = wl) ∧
      (r.whitelist = none → (applyLoadedSettings r).whitelist = []) ∧
      (r.runOnStartup = some b → (applyLoadedSettings r).runOnStartup = b) ∧
      (r.runOnStartup = none → (applyLoadedSettings r).runOnStartup = false) ∧
      (r.runOnClose = some b → (applyLoadedSettings r).runOnClose = b) ∧
      (r.runOnClose = none → (applyLoadedSettings r).runOnClose = false) ∧
      (r.removeDownloads = some b →
        (applyLoadedSettings r).removeDownloads = b) ∧
      (r.removeDownloads = none →
        (applyLoadedSettings r).removeDownloads = true) ∧
      (r.removeFormData = some b → (applyLoadedSettings r).removeFormData = b) ∧
      (r.removeFormData = none → (applyLoadedSettings r).removeFormData = true) ∧
      (r.removeHistory = some b → (applyLoadedSettings r).removeHistory = b) ∧
      (r.removeHistory = none → (applyLoadedSettings r).removeHistory = true) ∧
      (r.removeCookies = some b → (applyLoadedSettings r).removeCookies = b) ∧
      (r.removeCookies = none → (applyLoadedSettings r).removeCookies = true) ∧
      (r.removeCacheAndStorage = some b →
        (applyLoadedSettings r).removeCacheAndStorage = b) ∧
      (r.removeCacheAndStorage = none →
        (applyLoadedSettings r).removeCacheAndStorage = true) := by
  refine ⟨rfl, fun r wl b => ?_⟩
  refine ⟨fun h => ?_, fun h => ?_, fun h => ?_, fun h => ?_, fun h => ?_,
    fun h => ?_, fun h => ?_, fun h => ?_, fun h => ?_, fun h => ?_,
    fun h => ?_, fun h => ?_, fun h => ?_, fun h => ?_, fun h => ?_,
    fun h => ?_⟩ <;>
    simp [applyLoadedSettings, DEFAULT_SETTINGS, h]

/-- C8 witness: a persisted explicit `false` for `removeHistory` is kept
rather than replaced by the default `true`, and the empty store yields the
defaults. -/
theorem C8_defaults_witness :
    applyLoadedSettings emptyStoredResult =
      { whitelist := [], runOnStartup := false, runOnClose := false
        removeDownloads := true, removeFormData := true, removeHistory := true
        removeCookies := true, removeCacheAndStorage := true } ∧
    (applyLoadedSettings
        { emptyStoredResult with removeHistory := some false }).removeHistory =
      false := by
  refine ⟨C8_defaults_nullish.1, ?_⟩
  exact (C8_defaults_nullish.2
    { emptyStoredResult with removeHistory := some false } [] false).2.2.2.2.2.2.2.2.2.2.1 rfl

/-- C10: the verdict of `validateDomainName` is equivalent to the
conjunction of just three conditions — length at most 253, `DOMAIN_REGEX`
match, and every dot-separated label at most 63 characters; every input the
remaining checks reject already fails `DOMAIN_REGEX`; and whenever the
regex matches, all non-final labels are already at most 63 characters, so
the label-length check can only fire on the final (TLD) label. -/
theorem C10_valid_refinement (d : String) :
    ((validateDomainName d).valid = true ↔
      (d.length ≤ 253 ∧ domainRegexTest d = true ∧
        ∀ p ∈ splitOnChar '.' d.data, p.length ≤ 63)) ∧
    (domainRegexTest d = true →
      ∀ p ∈ (splitOnChar '.' d.data).dropLast, p.length ≤ 63) ∧
    ((d.data.isEmpty = true ∨ d.data.any isDangerousChar = true ∨
        jsContainsChar d '*' = true ∨ d.data.all isAsciiChar = false ∨
        hasConsecutive '.' d.data = true ∨ jsStartsWith d '.' = true ∨
        jsEndsWith d '.' = true) →
      domainRegexTest d = false) := by
  refine ⟨validateDomainName_valid_iff, ?_, ?_⟩
  · intro hregex p hp
    exact (isValidLabelChars_spec
      ((domainRegexTest_iff.mp hregex).2.1 p hp)).2.2
  · intro hreject
    cases hregex : domainRegexTest d
    · rfl
    · exfalso
      obtain ⟨hdang, hstar, hascii, hdots, hstart, hend, hne⟩ :=
        domainRegex_passes_checks hregex
      rcases hreject with h | h | h | h | h | h | h
      · rw [List.isEmpty_iff] at h
        exact hne h
      · rw [hdang] at h
        exact Bool.false_ne_true h
      · rw [hstar] at h
        exact Bool.false_ne_true h
      · rw [hascii] at h
        simp at h
      · rw [hdots] at h
        exact Bool.false_ne_true h
      · rw [hstart] at h
        exact Bool.false_ne_true h
      · rw [hend] at h
        exact Bool.false_ne_true h

/-- C10 witness: `a..b` is rejected by the consecutive-dot check and indeed
already fails `DOMAIN_REGEX`. -/
theorem C10_valid_refinement_witness : domainRegexTest "a..b" = false :=
  (C10_valid_refinement "a..b").2.2 (by decide)

/-- C7: `validateDomainName` accepts exactly the domains matching the
label/TLD rules (dot-separated labels, alphanumeric possibly hyphenated,
not starting/ending with a hyphen, final label at least 2 letters,
case-insensitive, total length at most 253, each label at most 63); it
rejects every input containing `*`, consecutive dots, a leading or
trailing dot, a label longer than 63 characters, or a non-ASCII code
point; and the checks run in a fixed order, the first failing check's
error being returned. -/
theorem C7_validateDomainName (d : String) :
    ((validateDomainName d).valid = true ↔ domainSpecOk d = true) ∧
    (jsContainsChar d '*' = true → (validateDomainName d).valid = false) ∧
    (hasConsecutive '.' d.data = true → (validateDomainName d).valid = false) ∧
    ((jsStartsWith d '.' = true ∨ jsEndsWith d '.' = true) →
      (validateDomainName d).valid = false) ∧
    ((∃ p ∈ splitOnChar '.' d.data, 63 < p.length) →
      (validateDomainName d).valid = false) ∧
    ((∃ c ∈ d.data, isAsciiChar c = false) →
      (validateDomainName d).valid = false) ∧
    validateDomainName d =
      (match firstError (domainCheckErrors d) with
       | some e => { valid := false, error := some e }
       | none => { valid := true, error := none }) := by
  refine ⟨?_, ?_, ?_, ?_, ?_, ?_, validateDomainName_eq_firstError d⟩
  · rw [validateDomainName_valid_iff, domainSpecOk_iff]
  · intro hstar
    cases hv : (validateDomainName d).valid
    · rfl
    · exfalso
      obtain ⟨-, h2, -, -, -, -, -⟩ :=
        domainRegex_passes_checks (validateDomainName_valid_iff.mp hv).2.1
      rw [h2] at hstar
      exact Bool.false_ne_true hstar
  · intro hdots
    cases hv : (validateDomainName d).valid
    · rfl
    · exfalso
      obtain ⟨-, -, -, h4, -, -, -⟩ :=
        domainRegex_passes_checks (validateDomainName_valid_iff.mp hv).2.1
      rw [h4] at hdots
      exact Bool.false_ne_true hdots
  · intro hedge
    cases hv : (validateDomainName d).valid
    · rfl
    · exfalso
      obtain ⟨-, -, -, -, h5, h6, -⟩ :=
        domainRegex_passes_checks (validateDomainName_valid_iff.mp hv).2.1
      rcases hedge with h | h
      · rw [h5] at h
        exact Bool.false_ne_true h
      · rw [h6] at h
        exact Bool.false_ne_true h
  · intro hlong
    cases hv : (validateDomainName d).valid
    · rfl
    · exfalso
      obtain ⟨p, hp, hgt⟩ := hlong
      have := (validateDomainName_valid_iff.mp hv).2.2 p hp
      omega
  · intro hnonascii
    cases hv : (validateDomainName d).valid
    · rfl
    · exfalso
      obtain ⟨-, -, h3, -, -, -, -⟩ :=
        domainRegex_passes_checks (validateDomainName_valid_iff.mp hv).2.1
      obtain ⟨c, hc, hf⟩ := hnonascii
      have := List.all_eq_true.mp h3 c hc
      rw [hf] at this
      exact Bool.false_ne_true this

/-- C7 witness: a domain containing a wildcard is rejected. -/
theorem C7_validateDomainName_witness :
    (validateDomainName "exa*mple.com").valid = false :=
  (C7_validateDomainName "exa*mple.com").2.1 (by decide)

/-- C6: `parseWhitelistLine` splits on comma and trims each part; a failed
domain validation short-circuits into an error carrying the validation
message, the 1-based line number and the original line; a one-part line
with a valid domain yields an entry with both flags 1; a three-part line
whose second or third part is not the literal `"0"` or `"1"` fails with a
flag error citing the 1-based line number and the line (in particular
`parseWhitelistLine("example.com,2,1", 0)` fails mentioning line 1); and
any other part count fails with a generic format error. -/
theorem C6_parseWhitelistLine (line : String) (lineIndex : Nat) :
    ((validateDomainName ((trimmedParts line).head?.getD "")).valid = false →
      ∀ e, (validateDomainName ((trimmedParts line).head?.getD "")).error =
          some e →
        parseWhitelistLine line lineIndex =
          .err ("行" ++ toString (lineIndex + 1) ++ ": " ++ e ++ " (" ++
            line ++ ")")) ∧
    ((validateDomainName ((trimmedParts line).head?.getD "")).valid = true →
      (trimmedParts line).length = 1 →
      parseWhitelistLine line lineIndex =
        .ok { domain := (trimmedParts line).head?.getD ""
              keepCookies := 1, keepCache := 1 }) ∧
    ((validateDomainName ((trimmedParts line).head?.getD "")).valid = true →
      (trimmedParts line).length = 3 →
      (isValidFlag ((trimmedParts line)[1]?.getD "") &&
        isValidFlag ((trimmedParts line)[2]?.getD "")) = false →
      parseWhitelistLine line lineIndex =
        .err ("行" ++ toString (lineIndex + 1) ++
          ": フラグは 0 または 1 で指定してください (" ++ line ++ ")")) ∧
    ((validateDomainName ((trimmedParts line).head?.getD "")).valid = true →
      (trimmedParts line).length ≠ 1 → (trimmedParts line).length ≠ 3 →
      parseWhitelistLine line lineIndex =
        .err ("行" ++ toString (lineIndex + 1) ++ ": フォーマットが不正です (" ++
          line ++ ")")) ∧
    parseWhitelistLine "example.com,2,1" 0 =
      .err "行1: フラグは 0 または 1 で指定してください (example.com,2,1)" := by
  refine ⟨?_, ?_, ?_, ?_, by decide⟩
  · intro hv e he
    simp only [parseWhitelistLine]
    rw [if_pos hv, he]
    rfl
  · intro hv h1
    simp only [parseWhitelistLine]
    rw [if_neg (by simp [hv]), if_pos h1]
  · intro hv h3 hflags
    simp only [parseWhitelistLine]
    rw [if_neg (by simp [hv]), if_neg (by omega), if_pos h3,
      if_pos (by simp [hflags])]
  · intro hv h1 h3
    simp only [parseWhitelistLine]
    rw [if_neg (by simp [hv]), if_neg h1, if_neg h3]

/-- C6 witness: a bare valid domain parses into an entry with both flags
defaulted to 1. -/
theorem C6_parseWhitelistLine_witness :
    parseWhitelistLine "example.com" 0 =
      .ok { domain := "example.com", keepCookies := 1, keepCache := 1 } :=
  (C6_parseWhitelistLine "example.com" 0).2.1 (by decide) (by decide)

/-- Splitting a serialized whitelist line back on commas recovers the domain
and the two one-character flag strings, provided the domain contains no
comma and no whitespace. -/
theorem trimmedParts_serialized (dom : String) (hcomma : ',' ∉ dom.data)
    (hws : ∀ c ∈ dom.data, isJsWhitespaceChar c = false) (f1 f2 : String)
    (h1 : f1 = "0" ∨ f1 = "1") (h2 : f2 = "0" ∨ f2 = "1") :
    trimmedParts (dom ++ "," ++ f1 ++ "," ++ f2) = [dom, f1, f2] := by
  obtain ⟨c1, hc1, hcc1, hw1⟩ : ∃ c, f1.data = [c] ∧ ¬(c = ',') ∧
      isJsWhitespaceChar c = false := by
    rcases h1 with rfl | rfl
    · exact ⟨'0', rfl, by decide, by decide⟩
    · exact ⟨'1', rfl, by decide, by decide⟩
  obtain ⟨c2, hc2, hcc2, hw2⟩ : ∃ c, f2.data = [c] ∧ ¬(c = ',') ∧
      isJsWhitespaceChar c = false := by
    rcases h2 with rfl | rfl
    · exact ⟨'0', rfl, by decide, by decide⟩
    · exact ⟨'1', rfl, by decide, by decide⟩
  have hdata : (dom ++ "," ++ f1 ++ "," ++ f2).data =
      dom.data ++ ',' :: (c1 :: ',' :: c2 :: []) := by
    simp [String.data_append, hc1, hc2]
  rw [trimmedParts, hdata, splitOnChar_append_not_mem hcomma]
  have hsplit2 : splitOnChar ',' (c1 :: ',' :: c2 :: []) = [[c1], [c2]] := by
    simp [splitOnChar, hcc1, hcc2]
  rw [hsplit2]
  simp only [List.map_cons, List.map_nil]
  have hws1 : ∀ c ∈ [c1], isJsWhitespaceChar c = false := by
    intro c hc
    rw [List.mem_singleton] at hc
    subst hc
    exact hw1
  have hws2 : ∀ c ∈ [c2], isJsWhitespaceChar c = false := by
    intro c hc
    rw [List.mem_singleton] at hc
    subst hc
    exact hw2
  rw [jsTrim_eq_self hws, jsTrim_eq_self hws1, jsTrim_eq_self hws2, ← hc1, ← hc2]

/-- C9: serializing a whitelist entry with a valid domain and 0/1 flags to
the text line format and re-parsing it with `parseWhitelistLine` (at any
line index) succeeds and preserves the domain and both flags exactly. -/
theorem C9_round_trip (e : WhitelistEntry) (idx : Nat)
    (hd : (validateDomainName e.domain).valid = true)
    (hkc : e.keepCookies = 0 ∨ e.keepCookies = 1)
    (hkk : e.keepCache = 0 ∨ e.keepCache = 1) :
    parseWhitelistLine (serializeWhitelistLine e) idx = .ok e := by
  obtain ⟨dom, kc, kk⟩ := e
  simp only at hd hkc hkk
  obtain ⟨hcomma, hws⟩ := valid_domain_chars hd
  have hser : serializeWhitelistLine ⟨dom, kc, kk⟩ =
      dom ++ "," ++ (if kc = 0 then "0" else "1") ++ "," ++
        (if kk = 0 then "0" else "1") := rfl
  have h1 : (if kc = 0 then "0" else "1") = "0" ∨
      (if kc = 0 then "0" else "1") = "1" := by
    rcases hkc with rfl | rfl <;> simp
  have h2 : (if kk = 0 then "0" else "1") = "0" ∨
      (if kk = 0 then "0" else "1") = "1" := by
    rcases hkk with rfl | rfl <;> simp
  have hparts := trimmedParts_serialized dom hcomma hws _ _ h1 h2
  have hvf1 : isValidFlag (if kc = 0 then "0" else "1") = true := by
    rcases h1 with h | h <;> rw [h] <;> rfl
  have hvf2 : isValidFlag (if kk = 0 then "0" else "1") = true := by
    rcases h2 with h | h <;> rw [h] <;> rfl
  have hpf1 : parseFlagNat (if kc = 0 then "0" else "1") = kc := by
    rcases hkc with rfl | rfl <;> rfl
  have hpf2 : parseFlagNat (if kk = 0 then "0" else "1") = kk := by
    rcases hkk with rfl | rfl <;> rfl
  simp [parseWhitelistLine, hser, hparts, hd, hvf1, hvf2, hpf1, hpf2]

/-- C9 witness: the entry `{domain: "example.com", keepCookies: 1,
keepCache: 0}` survives the serialize/re-parse round trip at line index 2. -/
theorem C9_round_trip_witness :
    parseWhitelistLine
        (serializeWhitelistLine
          { domain := "example.com", keepCookies := 1, keepCache := 0 }) 2 =
      .ok { domain := "example.com", keepCookies := 1, keepCache := 0 } :=
  C9_round_trip { domain := "example.com", keepCookies := 1, keepCache := 0 } 2
    (by decide) (Or.inr rfl) (Or.inl rfl)

end Dehistory
